import Mathlib

/-!
Verification development for the neo-clash tunnel core.

The definitions below are a shallow embedding of `src/tunnel/tunnel.go`
(package `tunnel`) and of the `logsHandler` in the hub package
(`src/unnamed/part_000`).  External collaborator packages
(`github.com/Dreamacro/clash/adapters`, `.../rules`, `.../constant`,
`.../observable`) are not part of this repository; where the embedding
needs them they are either abstracted into parameters (the adapter
constructors, which may fail) or modelled from the spec (rule matching
semantics, the log-level constants), as noted in the doc comments.
-/

namespace NeoClash

/-- Destination descriptor.  The tunnel code treats it opaquely (only
`addr.String()` for logging); we keep the host for the modelled rule
predicates. -/
structure Addr where
  host : String
deriving DecidableEq, Repr

/-- Rules, as produced by the rule-parsing loop of `UpdateConfig`
(tunnel.go lines 82-100).  The constructors mirror the calls
`R.NewDomainSuffix`, `R.NewDomainKeyword`, `R.NewGEOIP`, `R.NewIPCIDR`
(shared by the `IP-CIDR` and `IP-CIDR6` kinds) and `R.NewFinal`.  Each
carries the payload/adapter strings the tunnel passes to the external
rules package. -/
inductive Rule where
  | domainSuffix (payload adapter : String)
  | domainKeyword (payload adapter : String)
  | geoip (payload adapter : String)
  | ipcidr (payload adapter : String)
  | final (adapter : String)
deriving DecidableEq, Repr

/-- The accessor `rule.Adapter()`: the adapter name the rule routes to. -/
def Rule.adapter : Rule → String
  | .domainSuffix _ a => a
  | .domainKeyword _ a => a
  | .geoip _ a => a
  | .ipcidr _ a => a
  | .final a => a

/-- Char-list prefix test, for the modelled keyword match. -/
def startsWithChars : List Char → List Char → Bool
  | [], _ => true
  | _ :: _, [] => false
  | a :: as, b :: bs => a = b && startsWithChars as bs

/-- Char-list substring test (`strings.Contains`), for the modelled
keyword match. -/
def containsChars (needle : List Char) : List Char → Bool
  | [] => needle.isEmpty
  | c :: rest => startsWithChars needle (c :: rest) || containsChars needle rest

/-- Modelled from the spec: `IsMatch` of the external rules package
(not under src/).  Per the spec the variants are domain-suffix match,
domain-keyword match, GeoIP match, IP-CIDR match, and a catch-all final
rule that always matches.  GeoIP/IP-CIDR matching over the host string
is a conservative stand-in; the claims settled here never depend on
which addresses these two variants match. -/
def Rule.isMatch : Rule → Addr → Bool
  | .domainSuffix p _, a => p.data.isSuffixOf a.host.data
  | .domainKeyword p _, a => containsChars p.data a.host.data
  | .geoip p _, a => p = a.host
  | .ipcidr p _, a => p = a.host
  | .final _, _ => true

/-- Proxies, as they appear in the tunnel's proxy table.  The
constructors mirror the adapters the tunnel installs: `NewShadowSocks`
(recorded by its name and assembled URL), `NewURLTest` (name, member
list, probe URL, probe delay in seconds), `NewDirect`, `NewReject`. -/
inductive Proxy where
  | direct
  | reject
  | shadowSocks (name url : String)
  | urlTest (name : String) (members : List Proxy) (url : String) (delaySec : Int)
deriving Repr

/-- The type assertion `proxy.(*adapters.URLTest)` used by the teardown
loop of `UpdateConfig` (tunnel.go lines 136-140). -/
def isURLTest : Proxy → Bool
  | .urlTest .. => true
  | _ => false

/-- The proxy table `map[string]C.Proxy`, embedded as an association
list with unique keys (insertion replaces). -/
abbrev PMap := List (String × Proxy)

/-- Go map read `m[k]`. -/
def lookupP : PMap → String → Option Proxy
  | [], _ => none
  | (k, v) :: rest, n => if k = n then some v else lookupP rest n

/-- Go map write `m[k] = v`: replaces any existing binding of `k`. -/
def insertP (m : PMap) (k : String) (v : Proxy) : PMap :=
  (k, v) :: m.filter (fun e => e.1 != k)

/-- Splitting on a single comma, as `strings.Split(s, ",")` does for
the separators used here: returns the (always nonempty) list of
substrings between commas. -/
def splitCharsAux : List Char → List Char → List (List Char)
  | [], cur => [cur.reverse]
  | c :: rest, cur =>
    if c = ',' then cur.reverse :: splitCharsAux rest []
    else splitCharsAux rest (c :: cur)

/-- Comma splitting on strings (`strings.Split(key, ",")`). -/
def splitFields (s : String) : List String :=
  (splitCharsAux s.data []).map (fun cs => String.mk cs)

/-- Whitespace trimming of one string, as `strings.TrimSpace` does:
drop whitespace from both ends. -/
def trimStr (s : String) : String :=
  String.mk (((s.data.dropWhile Char.isWhitespace).reverse.dropWhile
    Char.isWhitespace).reverse)

/-- Helper `trimArr` (tunnel.go lines 210-215): trims whitespace from every
element. -/
def trimArr (arr : List String) : List String :=
  arr.map trimStr

/-- Digit accumulation for `atoi`: `none` when a non-digit appears. -/
def parseDigitsAux : List Char → Nat → Option Nat
  | [], acc => some acc
  | c :: rest, acc =>
    if '0' ≤ c ∧ c ≤ '9' then parseDigitsAux rest (acc * 10 + (c.toNat - 48))
    else none

/-- Integer parsing as the group loop uses `strconv.Atoi` with its
error ignored (`delay, _ := strconv.Atoi(...)`): a malformed number
yields 0. -/
def atoi (s : String) : Int :=
  match s.data with
  | [] => 0
  | '+' :: rest =>
    match parseDigitsAux rest 0 with
    | some n => (n : Int)
    | none => 0
  | '-' :: rest =>
    match parseDigitsAux rest 0 with
    | some n => -(n : Int)
    | none => 0
  | cs =>
    match parseDigitsAux cs 0 with
    | some n => (n : Int)
    | none => 0

/-- One key of a config section: `key.Name()` and `key.Value()`. -/
structure Entry where
  name : String
  value : String
deriving DecidableEq, Repr

/-- The three sections `UpdateConfig` reads from the configuration
document (tunnel.go lines 60-62). -/
structure IniConfig where
  proxySection : List Entry
  ruleSection : List Entry
  groupSection : List Entry

/-- The external adapter constructors (`github.com/Dreamacro/clash/adapters`,
an external collaborator, not part of this repository).  Both may
report a hard validation failure, which `UpdateConfig` propagates. -/
structure Adapters where
  newShadowSocks : String → String → Except String Proxy
  newURLTest : String → List Proxy → String → Int → Except String Proxy

/-- The proxy-parsing loop of `UpdateConfig` (tunnel.go lines 65-79):
split the value on commas, skip entries with fewer than 5 fields, trim,
and for kind `ss` build the ss URL and construct the adapter; a
constructor error aborts the whole compile. -/
def parseProxies (A : Adapters) : List Entry → PMap → Except String PMap
  | [], acc => .ok acc
  | e :: rest, acc =>
    let fs := splitFields e.value
    if fs.length < 5 then parseProxies A rest acc
    else
      let p := trimArr fs
      if p.getD 0 "" = "ss" then
        let ssURL := "ss://" ++ p.getD 3 "" ++ ":" ++ p.getD 4 "" ++ "@"
          ++ p.getD 1 "" ++ ":" ++ p.getD 2 ""
        match A.newShadowSocks e.name ssURL with
        | .error err => .error err
        | .ok ss => parseProxies A rest (insertP acc e.name ss)
      else parseProxies A rest acc

/-- The rule-parsing loop of `UpdateConfig` (tunnel.go lines 82-100):
split the key NAME on commas, skip entries with fewer than 3 fields,
trim, then dispatch on the rule kind; unknown kinds are skipped.  Note
`FINAL` reads its adapter from field index 2, like every other kind. -/
def parseRules : List Entry → List Rule
  | [] => []
  | e :: rest =>
    let fs := splitFields e.name
    if fs.length < 3 then parseRules rest
    else
      let r := trimArr fs
      if r.getD 0 "" = "DOMAIN-SUFFIX" then
        .domainSuffix (r.getD 1 "") (r.getD 2 "") :: parseRules rest
      else if r.getD 0 "" = "DOMAIN-KEYWORD" then
        .domainKeyword (r.getD 1 "") (r.getD 2 "") :: parseRules rest
      else if r.getD 0 "" = "GEOIP" then
        .geoip (r.getD 1 "") (r.getD 2 "") :: parseRules rest
      else if r.getD 0 "" = "IP-CIDR" ∨ r.getD 0 "" = "IP-CIDR6" then
        .ipcidr (r.getD 1 "") (r.getD 2 "") :: parseRules rest
      else if r.getD 0 "" = "FINAL" then
        .final (r.getD 2 "") :: parseRules rest
      else parseRules rest

/-- The member-resolution loop inside group parsing (tunnel.go lines
113-118): keep, in order, the proxies found in the table under the
member names; names absent from the table contribute nothing. -/
def resolveMembers (m : PMap) (names : List String) : List Proxy :=
  names.filterMap (fun n => lookupP m n)

/-- The group-parsing loop of `UpdateConfig` (tunnel.go lines 103-126):
split the value on commas, skip entries with fewer than 4 fields, trim;
for kind `url-test` the member names are fields 1 .. len-3, the probe
URL is field len-2 and the delay field len-1 (`Atoi` error ignored,
yielding 0).  Members are resolved against the proxy table accumulated
SO FAR; the constructed group is inserted into that same table, so
later groups can reference earlier ones.  A constructor error aborts
the compile with a wrapped message.  Besides the updated table, the
embedding records each constructor call `(group name, resolved member
list)` so that theorems can speak about what the constructor was
given. -/
def parseGroups (A : Adapters) :
    List Entry → PMap → List (String × List Proxy) →
    Except String (PMap × List (String × List Proxy))
  | [], acc, calls => .ok (acc, calls)
  | e :: rest, acc, calls =>
    let fs := splitFields e.value
    if fs.length < 4 then parseGroups A rest acc calls
    else
      let g := trimArr fs
      if g.getD 0 "" = "url-test" then
        let proxyNames := ((g.drop 1).dropLast).dropLast
        let delay := atoi (g.getD (g.length - 1) "")
        let url := g.getD (g.length - 2) ""
        let ps := resolveMembers acc proxyNames
        match A.newURLTest e.name ps url delay with
        | .error err => .error ("Config error: " ++ err)
        | .ok adapter =>
            parseGroups A rest (insertP acc e.name adapter) (calls ++ [(e.name, ps)])
      else parseGroups A rest acc calls

/-- The tunnel's live routing state: the pair of tables guarded by
`configLock`. -/
structure TunnelState where
  rules : List Rule
  proxies : PMap

/-- Result of one `UpdateConfig` call: the error returned to the
caller (`none` on success), the live state after the call, the list of
URL-test groups of the PREVIOUS table whose `Close()` the exclusive
section invoked, and the recorded group-constructor calls. -/
structure UpdateResult where
  error : Option String
  state : TunnelState
  closed : List Proxy
  calls : List (String × List Proxy)

/-- Method `Tunnel.UpdateConfig` (tunnel.go lines 51-146), parameterised over
the external adapter constructors and over the outcome of
`C.GetConfig()` (the configuration source is an external collaborator).
On any failure the function returns the error and the live state is
left untouched, with no teardown performed; on success the built-in
`DIRECT` and `REJECT` proxies are (re)inserted, every URL-test group of
the previous table is closed, and the new table pair is swapped in. -/
def updateConfig (A : Adapters) (getConfig : Except String IniConfig)
    (t : TunnelState) : UpdateResult :=
  match getConfig with
  | .error e => ⟨some e, t, [], []⟩
  | .ok cfg =>
    match parseProxies A cfg.proxySection [] with
    | .error e => ⟨some e, t, [], []⟩
    | .ok proxies1 =>
      let rules := parseRules cfg.ruleSection
      match parseGroups A cfg.groupSection proxies1 [] with
      | .error e => ⟨some e, t, [], []⟩
      | .ok (proxies2, calls) =>
        let proxies3 := insertP (insertP proxies2 "DIRECT" .direct) "REJECT" .reject
        let closed := t.proxies.filterMap
          (fun e => if isURLTest e.2 then some e.2 else none)
        ⟨none, ⟨rules, proxies3⟩, closed, calls⟩

/-- Method `Tunnel.match` (tunnel.go lines 171-185): walk the rule table in
order; a rule that matches AND whose adapter name resolves in the proxy
table returns that proxy; otherwise the walk continues; if the walk
ends, return the table's `DIRECT` entry (`none` models Go's nil
interface when even `DIRECT` is absent). -/
def matchProxy : List Rule → PMap → Addr → Option Proxy
  | [], ps, _ => lookupP ps "DIRECT"
  | r :: rest, ps, a =>
    if r.isMatch a then
      match lookupP ps r.adapter with
      | some p => some p
      | none => matchProxy rest ps a
    else matchProxy rest ps a

/-- Restatement of the amended match contract in the spec's own terms,
for comparison with `matchProxy`: the first rule that both matches and
resolves wins; otherwise `DIRECT`. -/
def matchSpec (rs : List Rule) (ps : PMap) (a : Addr) : Option Proxy :=
  match rs.find? (fun r => r.isMatch a && (lookupP ps r.adapter).isSome) with
  | some r => lookupP ps r.adapter
  | none => lookupP ps "DIRECT"

/-! ## Connection handling (`Tunnel.handleConn`, tunnel.go lines 157-169)

The handler is embedded as a trace of the observable actions it performs,
with Go's `defer` embedded by `runDefer` (the deferred action runs when the
guarded body finishes, on every exit path).  The outcome of
`proxy.Generator(addr)` (the outbound connect) is a parameter. -/

/-- Observable actions of `handleConn`: the warning log on connect
failure, the bidirectional relay `localConn.Connect(remoteConn)`, and
the two deferred closes. -/
inductive ConnEvent where
  | logWarning (msg : String)
  | relay
  | closeRemote
  | closeLocal
deriving DecidableEq, Repr

/-- Go `defer d` over a body: `d` runs after the body, on every exit
path out of the enclosing function. -/
def runDefer (d : ConnEvent) (body : List ConnEvent) : List ConnEvent :=
  body ++ [d]

/-- The body of `handleConn` after the leading `defer localConn.Close()`:
on connect failure, log the warning and return (the outbound leg is
never touched); on success, `defer remoteConn.Close()` and run the
relay once. -/
def handleConnBody (connect : Except String Unit) : List ConnEvent :=
  match connect with
  | .error e => [.logWarning ("Proxy connect error: " ++ e)]
  | .ok _ => runDefer .closeRemote [.relay]

/-- Method `Tunnel.handleConn` as its action trace: the whole body runs under
`defer localConn.Close()`. -/
def handleConn (connect : Except String Unit) : List ConnEvent :=
  runDefer .closeLocal (handleConnBody connect)

/-! ## Log streaming (`logsHandler`, hub package, src/unnamed/part_000
lines 72-127) -/

/-- Modelled from the spec: the `tunnel` package's `LogLevel` constants
(`tunnel.ERROR`, `tunnel.WARNING`, `tunnel.INFO`, `tunnel.DEBUG`) are
code of this repository that is not under src/ (only the hub handler
that compares them is).  Per the spec the severity order is
debug < info < warning < error and the handler must deliver exactly the
events at or above the requested minimum; the handler keeps an event
when `log.LogLevel > level` is false, so the numeric constants must
DEcrease with severity, `ERROR` first in the iota block. -/
inductive LogLevel where
  | error
  | warning
  | info
  | debug
deriving DecidableEq, Repr

/-- The numeric value of the modelled `LogLevel` constant (its iota
index). -/
def LogLevel.toNat : LogLevel → Nat
  | .error => 0
  | .warning => 1
  | .info => 2
  | .debug => 3

/-- Severity rank per the spec's order `debug < info < warning < error`;
used only to compare the handler's filter against the spec's words. -/
def severity : LogLevel → Nat
  | .debug => 0
  | .info => 1
  | .warning => 2
  | .error => 3

/-- A published log event, as the handler reads it off the bus
(`tunnel.Log` with its `LogLevel` and `Payload`). -/
structure LogEvent where
  level : LogLevel
  payload : String
deriving DecidableEq, Repr

/-- The handler's `levelMapping` table (part_000 lines 85-90). -/
def levelMapping (s : String) : Option LogLevel :=
  if s = "info" then some .info
  else if s = "debug" then some .debug
  else if s = "error" then some .error
  else if s = "warning" then some .warning
  else none

/-- Level resolution of `logsHandler`: an empty level string defaults
to `"info"` before the table lookup (part_000 lines 81-96). -/
def requestedLevel (s : String) : Option LogLevel :=
  levelMapping (if s = "" then "info" else s)

/-- What the handler answers: a 400 client error for an unrecognized
level, or the filtered stream. -/
inductive LogsResponse where
  | badRequest
  | stream (delivered : List LogEvent)
deriving DecidableEq, Repr

/-- The handler's delivery loop (part_000 lines 113-127): an event is
skipped when `log.LogLevel > level`, otherwise encoded onto the
stream, in publish order. -/
def deliverLogs (lvl : LogLevel) (events : List LogEvent) : List LogEvent :=
  events.filter (fun l => !(decide (lvl.toNat < l.level.toNat)))

/-- Function `logsHandler` over one request: resolve the requested level, reject
unrecognized levels, otherwise deliver the filtered events. -/
def logsHandler (levelStr : String) (events : List LogEvent) : LogsResponse :=
  match requestedLevel levelStr with
  | none => .badRequest
  | some lvl => .stream (deliverLogs lvl events)

/-- A concrete instantiation of the external adapter constructors, used
by the concrete scenarios below: both constructors always succeed and
record their arguments in the constructed proxy. -/
def modelAdapters : Adapters :=
  ⟨fun n u => .ok (.shadowSocks n u), fun n ps u d => .ok (.urlTest n ps u d)⟩

/-- The spec's reload scenario document: a rule section holding one
malformed 2-field line and one `FINAL,DIRECT` line. -/
def c2doc : IniConfig := ⟨[], [⟨"X,Y", ""⟩, ⟨"FINAL,DIRECT", ""⟩], []⟩

/-- A document whose second url-test group references the first group
by name, with an empty proxy section. -/
def c10doc : IniConfig :=
  ⟨[], [], [⟨"G1", "url-test,A,http://u,10"⟩, ⟨"G2", "url-test,G1,http://u,10"⟩]⟩

/-- A live state holding one url-test group named `G`, for the
teardown scenario. -/
def c6prev : TunnelState := ⟨[], [("G", .urlTest "G" [] "u" 1)]⟩

/-- A document that declares a fresh group under the same name `G`. -/
def c6doc : IniConfig := ⟨[], [], [⟨"G", "url-test,A,http://u,10"⟩]⟩

/-- A nonempty live state, for the failed-reload scenario. -/
def c5state : TunnelState := ⟨[.final "DIRECT"], [("DIRECT", .direct)]⟩

namespace Swap

/-! ## The `configLock` interleaving model

`Tunnel.match` reads `t.rules` and `t.proxies` under `configLock.RLock`
(tunnel.go lines 172-184) and `UpdateConfig` assigns `t.proxies` then
`t.rules` under `configLock.Lock` (lines 132-143).  To settle the
atomic-swap property the two fields are abstracted to the GENERATION
number of the table they hold, and the lock discipline of the Go
`sync.RWMutex` is embedded as a transition system: any number of reader
threads run the match read sequence, a writer thread runs the exclusive
section (repeatedly, which also covers several serialized `UpdateConfig`
calls, since the exclusive lock admits one writer at a time).  Each
completed read appends the observed `(rules generation, proxies
generation)` pair to `obs`. -/

/-- Writer control point: outside the exclusive section, just acquired,
after assigning `t.proxies`, after also assigning `t.rules`. -/
inductive WriterPC where
  | idle
  | cs0
  | cs1
  | cs2
deriving DecidableEq, Repr

/-- Reader control point for one `match` call: not holding the read
lock, holding it, after reading `t.rules`, after also reading
`t.proxies`. -/
inductive ReaderPC where
  | idle
  | holding
  | gotRules (a : Nat)
  | gotBoth (a b : Nat)
deriving DecidableEq, Repr

/-- Global state: the two shared table fields (as generations), the
writer's control point and its pending new generation, every reader's
control point, and the log of completed read observations. -/
structure Sys where
  rulesV : Nat
  proxiesV : Nat
  wpc : WriterPC
  pending : Nat
  readers : Nat → ReaderPC
  obs : List (Nat × Nat)

/-- Pointwise update of the reader family. -/
def setReader (f : Nat → ReaderPC) (i : Nat) (v : ReaderPC) : Nat → ReaderPC :=
  fun j => if j = i then v else f j

/-- The initial state: generation 0 tables, nobody holds the lock. -/
def init : Sys :=
  ⟨0, 0, .idle, 0, fun _ => .idle, []⟩

/-- One interleaving step.  Reader steps: `RLock` (admitted while no
writer holds the lock), read `t.rules`, read `t.proxies`, `RUnlock`
(recording the observation).  Writer steps: `Lock` (admitted while no
reader holds the lock), assign `t.proxies`, assign `t.rules`,
`Unlock`. -/
inductive Step : Sys → Sys → Prop where
  | rAcq (s : Sys) (i : Nat) (hr : s.readers i = .idle) (hw : s.wpc = .idle) :
      Step s { s with readers := setReader s.readers i .holding }
  | rReadRules (s : Sys) (i : Nat) (hr : s.readers i = .holding) :
      Step s { s with readers := setReader s.readers i (.gotRules s.rulesV) }
  | rReadProxies (s : Sys) (i : Nat) (a : Nat) (hr : s.readers i = .gotRules a) :
      Step s { s with readers := setReader s.readers i (.gotBoth a s.proxiesV) }
  | rRel (s : Sys) (i : Nat) (a b : Nat) (hr : s.readers i = .gotBoth a b) :
      Step s { s with readers := setReader s.readers i .idle,
                      obs := (a, b) :: s.obs }
  | wAcq (s : Sys) (hw : s.wpc = .idle) (hr : ∀ j, s.readers j = .idle) :
      Step s { s with wpc := .cs0, pending := s.rulesV + 1 }
  | wWriteProxies (s : Sys) (hw : s.wpc = .cs0) :
      Step s { s with proxiesV := s.pending, wpc := .cs1 }
  | wWriteRules (s : Sys) (hw : s.wpc = .cs1) :
      Step s { s with rulesV := s.pending, wpc := .cs2 }
  | wRel (s : Sys) (hw : s.wpc = .cs2) :
      Step s { s with wpc := .idle }

/-- States reachable from `init` by interleaving steps. -/
inductive Reachable : Sys → Prop where
  | init : Reachable init
  | step {s s2 : Sys} : Reachable s → Step s s2 → Reachable s2

/-- The inductive invariant: while the writer is inside the exclusive
section no reader holds the read lock; the two table fields agree
except between the writer's two assignments; after the first
assignment `t.proxies` already holds the pending generation; a
reader's saved rules generation is still current; a completed reader
pair is consistent; and so is every recorded observation. -/
structure Inv (s : Sys) : Prop where
  noReaders : s.wpc ≠ .idle → ∀ j, s.readers j = .idle
  agree : s.wpc ≠ .cs1 → s.rulesV = s.proxiesV
  proxPending : s.wpc = .cs1 → s.proxiesV = s.pending
  savedRules : ∀ j a, s.readers j = .gotRules a → a = s.rulesV
  savedPair : ∀ j a b, s.readers j = .gotBoth a b → a = b
  obsOK : ∀ p ∈ s.obs, (p : Nat × Nat).1 = p.2

/-- Trace state after one reader acquires the read lock. -/
def w1 : Sys := { init with readers := setReader init.readers 0 .holding }

/-- Trace state after that reader reads the rule table. -/
def w2 : Sys := { w1 with readers := setReader w1.readers 0 (.gotRules w1.rulesV) }

/-- Trace state after that reader reads the proxy table. -/
def w3 : Sys := { w2 with readers := setReader w2.readers 0 (.gotBoth 0 w2.proxiesV) }

/-- Trace state after that reader releases the lock, recording its
observation. -/
def w4 : Sys :=
  { w3 with readers := setReader w3.readers 0 .idle, obs := (0, 0) :: w3.obs }

end Swap

section ClaimProofs

/-! ## Helper lemmas -/

theorem lookupP_filter_ne (m : PMap) (k n : String) (h : k ≠ n) :
    lookupP (m.filter (fun e => e.1 != k)) n = lookupP m n := by
  induction m with
  | nil => rfl
  | cons x rest ih =>
    rcases x with ⟨xk, xv⟩
    by_cases hx : xk = k
    · have hb : ((xk, xv).1 != k) = false := by simp [hx]
      simp [List.filter_cons, hb, lookupP, ih]
      rw [if_neg (fun hkn => h (hx.symm.trans hkn))]
    · have hb : ((xk, xv).1 != k) = true := by simp [hx]
      simp [List.filter_cons, hb, lookupP, ih]

theorem lookupP_insertP_self (m : PMap) (k : String) (v : Proxy) :
    lookupP (insertP m k v) k = some v := by
  simp [insertP, lookupP]

theorem lookupP_insertP_ne (m : PMap) (k n : String) (v : Proxy) (h : k ≠ n) :
    lookupP (insertP m k v) n = lookupP m n := by
  simp only [insertP, lookupP, if_neg h]
  exact lookupP_filter_ne m k n h

/-! ## C1: match falls through stale adapters, it does not fall back to
DIRECT for the first matching rule -/

/-- C1 (counterexample): with a first matching rule whose adapter name
`X` is absent from the proxy table and a later matching rule bound to
the present name `Y`, `match` returns the proxy bound to `Y`, not the
`DIRECT` proxy the claim prescribes for the first matching rule. -/
theorem c1_counterexample :
    matchProxy [.final "X", .final "Y"]
        [("Y", .shadowSocks "Y" "u"), ("DIRECT", .direct)] ⟨"h"⟩
      = some (.shadowSocks "Y" "u") ∧
    lookupP [("Y", .shadowSocks "Y" "u"), ("DIRECT", .direct)] "DIRECT"
      = some .direct ∧
    Proxy.shadowSocks "Y" "u" ≠ Proxy.direct :=
  ⟨rfl, rfl, fun h => Proxy.noConfusion h⟩

/-- C1 (amended): for every rule table, proxy table and address,
`match` returns the proxy bound to the first rule in declaration order
that matches AND whose adapter name is present in the proxy table; a
matching rule with a stale adapter name is skipped and later rules are
considered; if no rule both matches and resolves, `match` returns the
table's `DIRECT` entry.  `matchProxy` is a total function, so the
embedded `match` never panics its caller. -/
theorem c1_match_first_resolvable (rs : List Rule) (ps : PMap) (a : Addr) :
    matchProxy rs ps a = matchSpec rs ps a := by
  induction rs with
  | nil => rfl
  | cons r rest ih =>
    by_cases hm : r.isMatch a
    · cases hl : lookupP ps r.adapter with
      | some p => simp [matchProxy, matchSpec, List.find?, hm, hl]
      | none =>
        simp only [matchProxy, hm, if_true, hl]
        rw [ih]
        simp [matchSpec, List.find?, hm, hl]
    · simp only [matchProxy, hm, if_false]
      rw [ih]
      simp [matchSpec, List.find?, hm]

/-! ## C2: the spec's reload scenario yields a 0-rule table, not a
1-rule table -/

/-- C2 (counterexample): compiling the scenario document (one malformed
2-field rule line and one `FINAL,DIRECT` line) succeeds but yields a
rule table with 0 rules, not 1: the `FINAL,DIRECT` line itself has only
2 fields and is skipped by the `len(rule) < 3` guard. -/
theorem c2_counterexample :
    (updateConfig modelAdapters (.ok c2doc) ⟨[], []⟩).error = none ∧
    ¬ (updateConfig modelAdapters (.ok c2doc) ⟨[], []⟩).state.rules.length = 1 :=
  ⟨rfl, by decide⟩

/-- C2 (amended): compiling a configuration whose rule section contains
one malformed 2-field line and one `FINAL,DIRECT` line yields a 0-rule
table and does not return a compile error; in the code's own grammar a
FINAL rule needs 3 fields (such as `FINAL,,DIRECT`, whose third field
is the adapter) to yield a rule. -/
theorem c2_amended :
    (updateConfig modelAdapters (.ok c2doc) ⟨[], []⟩).error = none ∧
    (updateConfig modelAdapters (.ok c2doc) ⟨[], []⟩).state.rules = [] ∧
    parseRules [⟨"FINAL,,DIRECT", ""⟩] = [.final "DIRECT"] :=
  ⟨rfl, rfl, rfl⟩

/-! ## C9: connection handling closes both legs and never retries -/

/-- C9: for every outcome of the proxy's outbound connect, the local
connection close is the last action on every exit path; on connect
failure the handler emits the warning log and never touches the
outbound leg (no close, no relay); on success the outbound close is
performed and the relay runs exactly once (never retried). -/
theorem c9_handle_conn (e : String) :
    (handleConn (.error e)).getLast? = some .closeLocal ∧
    (handleConn (.ok ())).getLast? = some .closeLocal ∧
    ConnEvent.closeRemote ∉ handleConn (.error e) ∧
    ConnEvent.relay ∉ handleConn (.error e) ∧
    ConnEvent.logWarning ("Proxy connect error: " ++ e) ∈ handleConn (.error e) ∧
    (handleConn (.ok ())).count .relay = 1 ∧
    ConnEvent.closeRemote ∈ handleConn (.ok ()) := by
  refine ⟨rfl, rfl, ?_, ?_, ?_, rfl, ?_⟩ <;>
    simp [handleConn, handleConnBody, runDefer]

/-! ## C3: malformed entries are skipped, never fatal -/

theorem parseProxies_skip (A : Adapters) (e : Entry)
    (h : (splitFields e.value).length < 5) (l1 l2 : List Entry) (m : PMap) :
    parseProxies A (l1 ++ e :: l2) m = parseProxies A (l1 ++ l2) m := by
  induction l1 generalizing m with
  | nil => simp [parseProxies, h]
  | cons x l1 ih =>
    simp only [List.cons_append, parseProxies]
    repeat' split
    all_goals first | rfl | apply ih

theorem parseRules_skip (e : Entry)
    (h : (splitFields e.name).length < 3 ∨
      (trimArr (splitFields e.name)).getD 0 "" ∉
        (["DOMAIN-SUFFIX", "DOMAIN-KEYWORD", "GEOIP", "IP-CIDR", "IP-CIDR6",
          "FINAL"] : List String))
    (l1 l2 : List Entry) :
    parseRules (l1 ++ e :: l2) = parseRules (l1 ++ l2) := by
  have hskip : parseRules (e :: l2) = parseRules l2 := by
    by_cases hl : (splitFields e.name).length < 3
    · simp [parseRules, hl]
    · rcases h with hl2 | hk
      · exact absurd hl2 hl
      · simp only [parseRules]
        rw [if_neg hl,
          if_neg (fun hc => hk (by rw [hc]; simp)),
          if_neg (fun hc => hk (by rw [hc]; simp)),
          if_neg (fun hc => hk (by rw [hc]; simp)),
          if_neg (fun hc : _ ∨ _ => hc.elim (fun hc1 => hk (by rw [hc1]; simp))
            (fun hc2 => hk (by rw [hc2]; simp))),
          if_neg (fun hc => hk (by rw [hc]; simp))]
  induction l1 with
  | nil => exact hskip
  | cons x l1 ih =>
    simp only [List.cons_append, parseRules]
    repeat' split
    all_goals first | exact ih | exact congrArg _ ih

theorem parseGroups_skip (A : Adapters) (e : Entry)
    (h : (splitFields e.value).length < 4) (l1 l2 : List Entry) (m : PMap)
    (c : List (String × List Proxy)) :
    parseGroups A (l1 ++ e :: l2) m c = parseGroups A (l1 ++ l2) m c := by
  induction l1 generalizing m c with
  | nil => simp [parseGroups, h]
  | cons x l1 ih =>
    simp only [List.cons_append, parseGroups]
    repeat' split
    all_goals first | rfl | apply ih

/-- C3: an entry with a wrong field count — a proxy line with fewer
than 5 fields, a rule line with fewer than 3, a group line with fewer
than 4 — or a rule line with an unknown kind is skipped by the section
parser that reads it: compiling with the entry present gives exactly
the same result (same table, same error behaviour) as compiling without
it, so such an entry never makes `UpdateConfig` return an error.  Each
conjunct carries only its own section's malformedness hypothesis, so
e.g. a 4-field proxy line is covered by the first conjunct and a
malformed rule line whose value has 4 or more fields by the second. -/
theorem c3_malformed_entry_skipped (A : Adapters) (l1 l2 : List Entry) (e : Entry)
    (m : PMap) (c : List (String × List Proxy)) :
    ((splitFields e.value).length < 5 →
      parseProxies A (l1 ++ e :: l2) m = parseProxies A (l1 ++ l2) m) ∧
    ((splitFields e.name).length < 3 ∨
        (trimArr (splitFields e.name)).getD 0 "" ∉
          (["DOMAIN-SUFFIX", "DOMAIN-KEYWORD", "GEOIP", "IP-CIDR", "IP-CIDR6",
            "FINAL"] : List String) →
      parseRules (l1 ++ e :: l2) = parseRules (l1 ++ l2)) ∧
    ((splitFields e.value).length < 4 →
      parseGroups A (l1 ++ e :: l2) m c = parseGroups A (l1 ++ l2) m c) :=
  ⟨fun hp => parseProxies_skip A e hp l1 l2 m,
    fun hr => parseRules_skip e hr l1 l2,
    fun hg => parseGroups_skip A e hg l1 l2 m c⟩

/-- C3 (witness): a 4-field proxy line (missing password) is skipped by
the proxy parser while the following valid line still compiles; a rule
line with an unknown 3-field name and a 4-field value is skipped by the
rule parser; a 3-field group line is skipped by the group parser. -/
theorem c3_malformed_entry_skipped_witness :
    parseProxies modelAdapters
        ([] ++ ⟨"P", "ss,1.2.3.4,8388,aes-256-gcm"⟩ :: [⟨"Q", "ss,h,p,c,pw"⟩]) []
      = parseProxies modelAdapters ([] ++ [⟨"Q", "ss,h,p,c,pw"⟩]) [] ∧
    parseRules ([] ++ ⟨"FOO,a,b", "ss,1.2.3.4,8388,aes-256-gcm"⟩ :: [⟨"FINAL,,DIRECT", "x"⟩])
      = parseRules ([] ++ [⟨"FINAL,,DIRECT", "x"⟩]) ∧
    parseGroups modelAdapters ([] ++ ⟨"G", "url-test,u,1"⟩ :: [⟨"FINAL,,DIRECT", "x"⟩]) [] []
      = parseGroups modelAdapters ([] ++ [⟨"FINAL,,DIRECT", "x"⟩]) [] [] :=
  ⟨(c3_malformed_entry_skipped modelAdapters [] [⟨"Q", "ss,h,p,c,pw"⟩]
      ⟨"P", "ss,1.2.3.4,8388,aes-256-gcm"⟩ [] []).1 (by decide),
    (c3_malformed_entry_skipped modelAdapters [] [⟨"FINAL,,DIRECT", "x"⟩]
      ⟨"FOO,a,b", "ss,1.2.3.4,8388,aes-256-gcm"⟩ [] []).2.1 (Or.inr (by decide)),
    (c3_malformed_entry_skipped modelAdapters [] [⟨"FINAL,,DIRECT", "x"⟩]
      ⟨"G", "url-test,u,1"⟩ [] []).2.2 (by decide)⟩

/-! ## C4: DIRECT and REJECT always present after a successful compile -/

/-- C4: after every successful `UpdateConfig`, the live proxy table
maps `DIRECT` to the built-in Direct proxy and `REJECT` to the built-in
Reject proxy, overriding any user-declared proxy or group under those
names (the built-ins are inserted last, after both parsing loops). -/
theorem c4_reserved_names (A : Adapters) (g : Except String IniConfig)
    (t : TunnelState) (h : (updateConfig A g t).error = none) :
    lookupP (updateConfig A g t).state.proxies "DIRECT" = some .direct ∧
    lookupP (updateConfig A g t).state.proxies "REJECT" = some .reject := by
  cases g with
  | error e => exact absurd h (by simp [updateConfig])
  | ok cfg =>
    cases hp : parseProxies A cfg.proxySection [] with
    | error e => exact absurd h (by simp [updateConfig, hp])
    | ok p1 =>
      cases hg : parseGroups A cfg.groupSection p1 [] with
      | error e => exact absurd h (by simp [updateConfig, hp, hg])
      | ok pc =>
        rcases pc with ⟨p2, cs⟩
        have hstate : (updateConfig A (.ok cfg) t).state.proxies
            = insertP (insertP p2 "DIRECT" .direct) "REJECT" .reject := by
          simp [updateConfig, hp, hg]
        rw [hstate]
        constructor
        · rw [lookupP_insertP_ne _ _ _ _ (by decide), lookupP_insertP_self]
        · exact lookupP_insertP_self _ _ _

/-- C4 (witness): a successful compile of the empty document has the
two built-ins in its table. -/
theorem c4_reserved_names_witness :
    lookupP (updateConfig modelAdapters (.ok ⟨[], [], []⟩) ⟨[], []⟩).state.proxies
        "DIRECT" = some .direct ∧
    lookupP (updateConfig modelAdapters (.ok ⟨[], [], []⟩) ⟨[], []⟩).state.proxies
        "REJECT" = some .reject :=
  c4_reserved_names modelAdapters (.ok ⟨[], [], []⟩) ⟨[], []⟩ rfl

/-! ## C5: a failed reload returns the error and leaves the live state
untouched -/

/-- C5: when the configuration source cannot be read, `UpdateConfig`
returns exactly that error; and whenever `UpdateConfig` returns an
error (unreadable document or a hard constructor failure), the live
tunnel state is exactly what it was before the call and no teardown of
existing groups is performed: the reload is never partially applied. -/
theorem c5_failure_atomicity (A : Adapters) (g : Except String IniConfig)
    (t : TunnelState) :
    (∀ e, g = .error e → (updateConfig A g t).error = some e) ∧
    (∀ e, (updateConfig A g t).error = some e →
      (updateConfig A g t).state = t ∧ (updateConfig A g t).closed = []) := by
  constructor
  · intro e he
    subst he
    rfl
  · intro e he
    cases g with
    | error e2 => exact ⟨rfl, rfl⟩
    | ok cfg =>
      cases hp : parseProxies A cfg.proxySection [] with
      | error e2 => constructor <;> simp [updateConfig, hp]
      | ok p1 =>
        cases hg : parseGroups A cfg.groupSection p1 [] with
        | error e2 => constructor <;> simp [updateConfig, hp, hg]
        | ok pc =>
          exact absurd he (by rcases pc with ⟨p2, cs⟩; simp [updateConfig, hp, hg])

/-- C5 (witness): an unreadable document leaves a concrete nonempty
live state untouched and surfaces the error. -/
theorem c5_failure_atomicity_witness :
    (updateConfig modelAdapters (.error "unreadable") c5state).error
      = some "unreadable" ∧
    (updateConfig modelAdapters (.error "unreadable") c5state).state = c5state ∧
    (updateConfig modelAdapters (.error "unreadable") c5state).closed = [] := by
  refine ⟨(c5_failure_atomicity modelAdapters (.error "unreadable") c5state).1
    "unreadable" rfl, ?_, ?_⟩
  · exact ((c5_failure_atomicity modelAdapters (.error "unreadable") c5state).2
      "unreadable" rfl).1
  · exact ((c5_failure_atomicity modelAdapters (.error "unreadable") c5state).2
      "unreadable" rfl).2

/-! ## C6: every url-test group of the previous table is closed on a
successful reload -/

/-- C6: on every successful `UpdateConfig`, every url-test group found
in the previous proxy table is among the groups whose `Close()` the
exclusive section invoked before swapping in the new tables — including
a group whose name also appears in the new table (the teardown loop
iterates the previous table only, and the embedding performs it inside
the critical section, before the swap, in program order). -/
theorem c6_previous_groups_closed (A : Adapters) (g : Except String IniConfig)
    (t : TunnelState) (n : String) (p : Proxy)
    (hok : (updateConfig A g t).error = none)
    (hmem : (n, p) ∈ t.proxies) (hu : isURLTest p = true) :
    p ∈ (updateConfig A g t).closed := by
  cases g with
  | error e => exact absurd hok (by simp [updateConfig])
  | ok cfg =>
    cases hp : parseProxies A cfg.proxySection [] with
    | error e => exact absurd hok (by simp [updateConfig, hp])
    | ok p1 =>
      cases hg : parseGroups A cfg.groupSection p1 [] with
      | error e => exact absurd hok (by simp [updateConfig, hp, hg])
      | ok pc =>
        rcases pc with ⟨p2, cs⟩
        have hclosed : (updateConfig A (.ok cfg) t).closed
            = t.proxies.filterMap
                (fun e => if isURLTest e.2 then some e.2 else none) := by
          simp [updateConfig, hp, hg]
        rw [hclosed]
        exact List.mem_filterMap.mpr ⟨(n, p), hmem, by simp [hu]⟩

/-- C6 (witness): a live table holding the url-test group `G` is torn
down even though the new document declares a fresh group under the same
name `G`. -/
theorem c6_previous_groups_closed_witness :
    Proxy.urlTest "G" [] "u" 1 ∈ (updateConfig modelAdapters (.ok c6doc) c6prev).closed :=
  c6_previous_groups_closed modelAdapters (.ok c6doc) c6prev "G"
    (Proxy.urlTest "G" [] "u" 1) rfl (by simp [c6prev]) rfl

/-! ## C7: readers never observe tables of mixed generations -/

theorem swap_inv_init : Swap.Inv Swap.init := by
  refine ⟨?_, ?_, ?_, ?_, ?_, ?_⟩
  · intro h
    exact absurd rfl h
  · intro _
    rfl
  · intro h
    cases h
  · intro j a hj
    cases hj
  · intro j a b hj
    cases hj
  · intro p hp
    cases hp

theorem swap_inv_step {s s2 : Swap.Sys} (hi : Swap.Inv s) (hst : Swap.Step s s2) :
    Swap.Inv s2 := by
  cases hst with
  | rAcq i hr hw =>
    refine ⟨?_, hi.agree, hi.proxPending, ?_, ?_, hi.obsOK⟩
    · intro hne
      exact absurd hw hne
    · intro j a hj
      by_cases hji : j = i
      · subst hji
        simp [Swap.setReader] at hj
      · simp [Swap.setReader, hji] at hj
        exact hi.savedRules j a hj
    · intro j a b hj
      by_cases hji : j = i
      · subst hji
        simp [Swap.setReader] at hj
      · simp [Swap.setReader, hji] at hj
        exact hi.savedPair j a b hj
  | rReadRules i hr =>
    refine ⟨?_, hi.agree, hi.proxPending, ?_, ?_, hi.obsOK⟩
    · intro hne
      exact absurd (hi.noReaders hne i) (by rw [hr]; intro hcon; cases hcon)
    · intro j a hj
      by_cases hji : j = i
      · subst hji
        simp [Swap.setReader] at hj
        show a = s.rulesV
        omega
      · simp [Swap.setReader, hji] at hj
        exact hi.savedRules j a hj
    · intro j a b hj
      by_cases hji : j = i
      · subst hji
        simp [Swap.setReader] at hj
      · simp [Swap.setReader, hji] at hj
        exact hi.savedPair j a b hj
  | rReadProxies i a hr =>
    refine ⟨?_, hi.agree, hi.proxPending, ?_, ?_, hi.obsOK⟩
    · intro hne
      exact absurd (hi.noReaders hne i) (by rw [hr]; intro hcon; cases hcon)
    · intro j a2 hj
      by_cases hji : j = i
      · subst hji
        simp [Swap.setReader] at hj
      · simp [Swap.setReader, hji] at hj
        exact hi.savedRules j a2 hj
    · intro j a2 b2 hj
      by_cases hji : j = i
      · subst hji
        simp [Swap.setReader] at hj
        obtain ⟨ha, hb⟩ := hj
        have hidle : s.wpc = .idle := by
          by_contra hne
          have hcon := hi.noReaders hne j
          rw [hr] at hcon
          cases hcon
        have h1 : a = s.rulesV := hi.savedRules j a hr
        have h2 : s.rulesV = s.proxiesV :=
          hi.agree (by rw [hidle]; intro hcon; cases hcon)
        omega
      · simp [Swap.setReader, hji] at hj
        exact hi.savedPair j a2 b2 hj
  | rRel i a b hr =>
    refine ⟨?_, hi.agree, hi.proxPending, ?_, ?_, ?_⟩
    · intro hne
      exact absurd (hi.noReaders hne i) (by rw [hr]; intro hcon; cases hcon)
    · intro j a2 hj
      by_cases hji : j = i
      · subst hji
        simp [Swap.setReader] at hj
      · simp [Swap.setReader, hji] at hj
        exact hi.savedRules j a2 hj
    · intro j a2 b2 hj
      by_cases hji : j = i
      · subst hji
        simp [Swap.setReader] at hj
      · simp [Swap.setReader, hji] at hj
        exact hi.savedPair j a2 b2 hj
    · intro p hp
      rcases List.mem_cons.mp hp with hpe | hps
      · subst hpe
        exact hi.savedPair i a b hr
      · exact hi.obsOK p hps
  | wAcq hw hr2 =>
    refine ⟨?_, ?_, ?_, ?_, ?_, hi.obsOK⟩
    · intro _ j
      exact hr2 j
    · intro _
      exact hi.agree (by rw [hw]; intro hcon; cases hcon)
    · intro hcon
      cases hcon
    · intro j a hj
      rw [hr2 j] at hj
      cases hj
    · intro j a b hj
      rw [hr2 j] at hj
      cases hj
  | wWriteProxies hw =>
    have hnone : ∀ j, s.readers j = .idle :=
      hi.noReaders (by rw [hw]; intro hcon; cases hcon)
    refine ⟨?_, ?_, ?_, ?_, ?_, hi.obsOK⟩
    · intro _ j
      exact hnone j
    · intro hne
      exact absurd rfl hne
    · intro _
      rfl
    · intro j a hj
      rw [hnone j] at hj
      cases hj
    · intro j a b hj
      rw [hnone j] at hj
      cases hj
  | wWriteRules hw =>
    have hnone : ∀ j, s.readers j = .idle :=
      hi.noReaders (by rw [hw]; intro hcon; cases hcon)
    refine ⟨?_, ?_, ?_, ?_, ?_, hi.obsOK⟩
    · intro _ j
      exact hnone j
    · intro _
      exact (hi.proxPending hw).symm
    · intro hcon
      cases hcon
    · intro j a hj
      rw [hnone j] at hj
      cases hj
    · intro j a b hj
      rw [hnone j] at hj
      cases hj
  | wRel hw =>
    refine ⟨?_, ?_, ?_, hi.savedRules, hi.savedPair, hi.obsOK⟩
    · intro hne
      exact absurd rfl hne
    · intro _
      exact hi.agree (by rw [hw]; intro hcon; cases hcon)
    · intro hcon
      cases hcon

theorem swap_reachable_inv {s : Swap.Sys} (h : Swap.Reachable s) : Swap.Inv s := by
  induction h with
  | init => exact swap_inv_init
  | step hr hst ih => exact swap_inv_step ih hst

/-- C7: in every interleaving of the reader (`match`) and writer
(`UpdateConfig`) protocols allowed by the `configLock` read-write lock
discipline, every observation a completed `match` records pairs a rule
table and a proxy table of the SAME generation: the pair is replaced as
a unit inside the exclusive section and readers hold the shared lock
across both reads. -/
theorem c7_atomic_swap (s : Swap.Sys) (hs : Swap.Reachable s) :
    ∀ p ∈ s.obs, (p : Nat × Nat).1 = p.2 :=
  (swap_reachable_inv hs).obsOK

/-- C7 (witness): a concrete four-step trace in which one reader
acquires, reads both tables and releases, observing the consistent
pair `(0, 0)`. -/
theorem c7_atomic_swap_witness : ((0, 0) : Nat × Nat).1 = ((0, 0) : Nat × Nat).2 := by
  have r4 : Swap.Reachable Swap.w4 :=
    Swap.Reachable.step
      (Swap.Reachable.step
        (Swap.Reachable.step
          (Swap.Reachable.step Swap.Reachable.init
            (Swap.Step.rAcq Swap.init 0 rfl rfl))
          (Swap.Step.rReadRules Swap.w1 0 rfl))
        (Swap.Step.rReadProxies Swap.w2 0 0 rfl))
      (Swap.Step.rRel Swap.w3 0 0 0 rfl)
  exact c7_atomic_swap Swap.w4 r4 (0, 0)
    (by show (0, 0) ∈ ((0, 0) :: []); exact List.mem_singleton.mpr rfl)

/-! ## C8: log-stream level handling -/

/-- C8: an absent or empty level string defaults to `info`; a level
string other than the four recognized names is rejected as a client
error (never coerced); and for a recognized minimum, the delivered
stream is exactly the published events whose severity is at or above
the requested minimum under debug < info < warning < error, in publish
order. -/
theorem c8_logs_level_filtering (s : String) (events : List LogEvent)
    (lvl : LogLevel) :
    logsHandler "" events = .stream (deliverLogs .info events) ∧
    (logsHandler s events = .badRequest ↔
      (s ≠ "" ∧ s ≠ "debug" ∧ s ≠ "info" ∧ s ≠ "warning" ∧ s ≠ "error")) ∧
    deliverLogs lvl events
      = events.filter (fun l => decide (severity lvl ≤ severity l.level)) := by
  refine ⟨rfl, ?_, ?_⟩
  · by_cases h0 : s = ""
    · subst h0
      constructor
      · intro hbad
        simp [logsHandler, requestedLevel, levelMapping] at hbad
      · rintro ⟨h1, _⟩
        exact absurd rfl h1
    · simp only [logsHandler, requestedLevel, if_neg h0, levelMapping]
      split_ifs with h2 h3 h4 h5 <;> simp_all
  · apply List.filter_congr
    intro x _
    rcases x with ⟨xl, xp⟩
    cases lvl <;> cases xl <;> rfl

/-! ## C10: group members resolve against the running proxy map -/

/-- C10 (counterexample): with an empty proxy section, the second group
`G2` names the earlier group `G1` as a member; `G1` is absent from the
map built from the proxy section (which is empty), yet the recorded
constructor call for `G2` receives the `G1` adapter as a member — the
member is not omitted, because resolution runs against the map
accumulated so far (proxy-section proxies plus earlier groups), not
against the proxy-section map alone. -/
theorem c10_counterexample :
    parseProxies modelAdapters c10doc.proxySection [] = .ok [] ∧
    lookupP [] "G1" = none ∧
    (updateConfig modelAdapters (.ok c10doc) ⟨[], []⟩).calls
      = [("G1", []), ("G2", [Proxy.urlTest "G1" [] "http://u" 10])] ∧
    ([Proxy.urlTest "G1" [] "http://u" 10] : List Proxy) ≠ [] :=
  ⟨rfl, rfl, rfl, List.cons_ne_nil _ _⟩

/-- C10 (amended): when a url-test group line is compiled, its members
are resolved against the proxy map as accumulated at that point in the
compile (the proxy-section proxies plus groups declared on earlier
lines; the reserved `DIRECT`/`REJECT` built-ins are inserted only after
group parsing, so they are absent unless user-declared): every member
name not present in that map is silently omitted, and the group is
still constructed from the remaining (possibly empty) members and
added under its name. -/
theorem c10_member_resolution (A : Adapters) (e : Entry) (rest : List Entry)
    (m : PMap) (c : List (String × List Proxy)) (p : Proxy)
    (hlen : ¬ (splitFields e.value).length < 4)
    (hkind : (trimArr (splitFields e.value)).getD 0 "" = "url-test")
    (hok : A.newURLTest e.name
        (resolveMembers m ((((trimArr (splitFields e.value)).drop 1).dropLast).dropLast))
        ((trimArr (splitFields e.value)).getD
          ((trimArr (splitFields e.value)).length - 2) "")
        (atoi ((trimArr (splitFields e.value)).getD
          ((trimArr (splitFields e.value)).length - 1) ""))
      = .ok p) :
    parseGroups A (e :: rest) m c
      = parseGroups A rest (insertP m e.name p)
          (c ++ [(e.name,
            resolveMembers m ((((trimArr (splitFields e.value)).drop 1).dropLast).dropLast))]) ∧
    ∀ ns1 n ns2, lookupP m n = none →
      resolveMembers m (ns1 ++ n :: ns2) = resolveMembers m (ns1 ++ ns2) := by
  constructor
  · simp only [parseGroups]
    rw [if_neg hlen, if_pos hkind, hok]
  · intro ns1 n ns2 hn
    simp [resolveMembers, List.filterMap_append, List.filterMap_cons, hn]

/-- C10 (witness): a concrete url-test line whose sole member name `A`
is absent from the map is still compiled, with an empty member list. -/
theorem c10_member_resolution_witness :
    parseGroups modelAdapters [⟨"G", "url-test,A,http://u,10"⟩] [] []
      = parseGroups modelAdapters []
          (insertP [] "G" (.urlTest "G" [] "http://u" 10))
          ([] ++ [("G",
            resolveMembers []
              ((((trimArr (splitFields "url-test,A,http://u,10")).drop 1).dropLast).dropLast))]) :=
  (c10_member_resolution modelAdapters ⟨"G", "url-test,A,http://u,10"⟩ [] [] []
    (.urlTest "G" [] "http://u" 10) (by decide) (by decide) rfl).1

end ClaimProofs

end NeoClash
